import Mathlib

/-!
Shallow embedding of the field-metadata-driven transformation core of the
`attrs`-style record library (files `src/attr/_funcs.py`, `_cmp.py`,
`filters.py`, `converters.py`, `setters.py`), together with theorems settling
the frozen claims about it.

Modelling conventions:
* Python values that the projector, converters and evolution handle are
  represented by the inductive `PyVal`.  Machine integers are `Int` (Python
  integers are unbounded, so no wrap-around modelling is needed).
* Fallible Python code (code that can raise) is embedded as functions into
  `Except PyErr _`.
* A raise of a *global name that is not bound in the module* (Python
  `NameError`) is represented by `PyErr.nameError` carrying the unbound name.
  This matters because `_funcs.py` references `NotAnAttrsClassError` and
  `_astuple_anything` without importing or defining them.
* The Field Registry (`_make.py`) is not part of the sources under
  verification; the spec treats it as an external collaborator.  The pieces of
  it that the claims need (`fields`/`has` as an interface, the generated
  initializer, `_make_ne`) are modelled from the spec and marked as such.
-/

namespace Attrs

/-- The class (Python type) of a value, as far as the claims need to
distinguish classes.  `attributeCls` is the class of field-metadata objects
(`attrs.Attribute`); the others are ordinary value classes that can appear as
filter selectors. -/
inductive PyClass where
  | attributeCls
  | intCls
  | strCls
  | boolCls
  | listCls
  | custom (name : String)
  deriving DecidableEq, Repr

/-- Field metadata, the comparison-relevant projection of an `attrs.Attribute`
object: its name, its declared type annotation (`Attribute.type`) and its
`init` flag.  Equality of two metadata objects is structural, mirroring the
field-wise `__eq__` that the registry generates for `Attribute`. -/
structure Attribute where
  name : String
  typ : Option PyClass
  init : Bool
  deriving DecidableEq, Repr

/-- A filter selector as accepted by `filters.include` / `filters.exclude`:
a class, a field-name string, or a field-metadata object. -/
inductive Selector where
  | cls (c : PyClass)
  | name (s : String)
  | attr (a : Attribute)
  deriving DecidableEq, Repr

/-- A Python value as handled by the structural projector: scalars, the four
sequence/set container kinds, mappings (as their ordered key-to-value entry
list) and record (attrs-decorated) instances.  A record instance carries its
class name and its fields in declared order, each paired with its current
value; the class determines the `Attribute` list (the Field Registry's
`fields`), the instance supplies the values (`getattr`). -/
inductive PyVal where
  | none_
  | bool (b : Bool)
  | int (n : Int)
  | str (s : String)
  | tuple (xs : List PyVal)
  | list (xs : List PyVal)
  | set (xs : List PyVal)
  | frozen (xs : List PyVal)
  | dict (entries : List (PyVal × PyVal))
  | record (cls : String) (fields : List (Attribute × PyVal))

/-- Errors raised by the embedded code, following the repository's error
classes.  `nameError` models Python's `NameError` for a reference to an
unbound global name. -/
inductive PyErr where
  | nameError (missing : String)
  | typeError (msg : String)
  | valueError (offending : PyVal)
  | notAnAttrsClass
  | frozenError
  | validationError (msg : String)

/-- The class of a field-metadata object (`attribute.__class__`): every
`Attribute` object handed to a filter by `asdict`/`astuple` is an instance of
the single `Attribute` class. -/
def Attribute.pyClass (_ : Attribute) : PyClass :=
  PyClass.attributeCls

/-! ## `filters.py` -/

/-- `_split_what` (filters.py): partition the selectors into the frozenset of
classes and the frozenset of everything else (name strings and `Attribute`
objects, which Python keeps in one mixed set; equality never identifies a
string with an `Attribute`, so the mixed set behaves like the disjoint union
of a name-set and an identity-set). -/
def _split_what (what : List Selector) : List PyClass × List Selector :=
  (what.filterMap (fun s => match s with | .cls c => some c | _ => none),
   what.filter (fun s => match s with | .cls _ => false | _ => true))

/-- The predicate `include_filter` returned by `filters.include(*what)`:
`attribute.name in attributes or attribute.__class__ in classes or
attribute in attributes`. -/
def include_filter (what : List Selector) (attr : Attribute) (_value : PyVal) : Bool :=
  let split := _split_what what
  split.2.contains (Selector.name attr.name)
    || split.1.contains attr.pyClass
    || split.2.contains (Selector.attr attr)

/-- The predicate `exclude_filter` returned by `filters.exclude(*what)`: the
negation of the same three-way test over the same partitioning. -/
def exclude_filter (what : List Selector) (attr : Attribute) (_value : PyVal) : Bool :=
  let split := _split_what what
  !(split.2.contains (Selector.name attr.name)
    || split.1.contains attr.pyClass
    || split.2.contains (Selector.attr attr))

/-- The acceptance condition that claim C4 attributes to `include`: the
field's *declared* category (its type annotation) is matched against the
type-set.  Written from the spec's words, to be compared with
`include_filter`, which is written from the source. -/
def include_spec_accepts (what : List Selector) (attr : Attribute) : Prop :=
  let split := _split_what what
  Selector.name attr.name ∈ split.2
    ∨ (∃ t, attr.typ = some t ∧ t ∈ split.1)
    ∨ Selector.attr attr ∈ split.2

instance (what : List Selector) (attr : Attribute) :
    Decidable (include_spec_accepts what attr) := by
  unfold include_spec_accepts
  exact inferInstanceAs (Decidable (_ ∨ _ ∨ _))

/-! ## `converters.py` : `to_bool` -/

/-- The truthy tokens of `to_bool`. -/
def truthyTokens : List String :=
  ["true", "t", "yes", "y", "on", "1"]

/-- The falsy tokens of `to_bool`. -/
def falsyTokens : List String :=
  ["false", "f", "no", "n", "off", "0"]

/-- Python `str(...)` for the inputs `to_bool` stringifies (strings and
ints). -/
def strOfStrOrInt : PyVal → Option String
  | .str s => some s
  | .int n => some (toString n)
  | _ => none

/-- Python `str.lower`, character by character; it agrees with Python on the
ASCII inputs the converter compares against its token tables. -/
def pyLower (s : String) : String :=
  String.mk (s.data.map Char.toLower)

/-- The shared string/int arm of `to_bool`: the reassignment
`val = str(val).lower()` followed by the two token-table membership tests and
the final `raise ValueError` naming the (lower-cased) value. -/
def toBoolToken (s : String) : Except PyErr Bool :=
  if pyLower s ∈ truthyTokens then .ok true
  else if pyLower s ∈ falsyTokens then .ok false
  else .error (.valueError (.str (pyLower s)))

/-- `converters.to_bool` (converters.py): booleans pass through
(`isinstance(val, bool)`); strings and ints (`isinstance(val, (str, int))`)
are stringified, lower-cased and looked up in the closed token tables;
everything else, and any unrecognized token, raises `ValueError` naming the
offending value. -/
def to_bool (val : PyVal) : Except PyErr Bool :=
  match val with
  | .bool b => .ok b
  | .str s => toBoolToken s
  | .int n => toBoolToken (toString n)
  | v => .error (.valueError v)

/-! ## `_cmp.py` : `cmp_using` -/

/-- The result of a Python rich-comparison method: either the soft
"incomparable" signal `NotImplemented` (a returned value, not an exception) or
the boolean answer. -/
inductive CmpResult where
  | notImplemented
  | res (b : Bool)
  deriving DecidableEq, Repr

/-- An instance of a class produced by `cmp_using`: it wraps one `value`; the
`cls` tag is the identity of its concrete class (each `cmp_using` call makes a
fresh class, and `type(self) is type(other)` iff the tags agree). -/
structure CmpInstance (α : Type) where
  cls : Nat
  value : α
  deriving DecidableEq, Repr

/-- `_make_method` (inside `cmp_using`): the generated operator first returns
`NotImplemented` when `require_same_type` holds and the operands' concrete
types differ, else returns the user-supplied predicate applied to the two
wrapped values. -/
def _make_method {α : Type} (require_same_type : Bool) (op : α → α → Bool)
    (self other : CmpInstance α) : CmpResult :=
  if require_same_type && self.cls != other.cls then .notImplemented
  else .res (op self.value other.value)

/-- Modelled from the spec: `_make_ne` lives in `_make.py`, which is the
external Field Registry module and is not under `src/`.  Per the spec
(section 4.1), the inequality operator, when `eq` is supplied, is derived as the
logical negation of the equality method, subject to the same incomparability
short-circuit: it forwards `NotImplemented` unchanged and negates a boolean
answer. -/
def _make_ne {α : Type} (eqMethod : CmpInstance α → CmpInstance α → CmpResult)
    (self other : CmpInstance α) : CmpResult :=
  match eqMethod self other with
  | .notImplemented => .notImplemented
  | .res b => .res (!b)

/-- The class built by `cmp_using`: its (optional) wired comparison methods
and its display name.  A method is `none` exactly when the corresponding
predicate was not supplied (the `if ... is not None` wiring in the source). -/
structure ComparableCls (α : Type) where
  className : String
  eqM : Option (CmpInstance α → CmpInstance α → CmpResult)
  neM : Option (CmpInstance α → CmpInstance α → CmpResult)
  ltM : Option (CmpInstance α → CmpInstance α → CmpResult)
  leM : Option (CmpInstance α → CmpInstance α → CmpResult)
  gtM : Option (CmpInstance α → CmpInstance α → CmpResult)
  geM : Option (CmpInstance α → CmpInstance α → CmpResult)

/-- `cmp_using` (_cmp.py): wire `__eq__` (and the derived `__ne__`) when `eq`
is supplied, and each ordering method when its predicate is supplied. -/
def cmp_using {α : Type} (eq lt le gt ge : Option (α → α → Bool))
    (require_same_type : Bool) (class_name : String) : ComparableCls α :=
  { className := class_name
    eqM := eq.map (_make_method require_same_type)
    neM := (eq.map (_make_method require_same_type)).map _make_ne
    ltM := lt.map (_make_method require_same_type)
    leM := le.map (_make_method require_same_type)
    gtM := gt.map (_make_method require_same_type)
    geM := ge.map (_make_method require_same_type) }

/-- Invoke an optionally-wired comparison method; a missing ordering method
answers `NotImplemented`, matching Python's default for an absent rich
comparison. -/
def invokeM {α : Type} (m : Option (CmpInstance α → CmpInstance α → CmpResult))
    (self other : CmpInstance α) : CmpResult :=
  match m with
  | some f => f self other
  | none => .notImplemented

/-- The fully wired comparator class: all five predicates supplied,
`require_same_type` true, the default display name. -/
def fullCmp {α : Type} (eqf ltf lef gtf gef : α → α → Bool) : ComparableCls α :=
  cmp_using (some eqf) (some ltf) (some lef) (some gtf) (some gef) true "Comparable"

/-! ## `setters.py` -/

/-- The validator/converter-carrying view of a field, as the setter hooks see
it.  (The comparison-relevant metadata is modelled separately as `Attribute`;
a Python validator also receives the attribute object itself, an argument the
settled claims never inspect and which a structural model cannot contain
within the field record.) -/
structure SetAttrib where
  validator : Option (PyVal → PyVal → Except PyErr Unit)
  converter : Option (PyVal → Except PyErr PyVal)

/-- A mutation-pipeline stage: `(instance, attribute, newValue) -> value`,
possibly raising. -/
def Setter : Type :=
  PyVal → SetAttrib → PyVal → Except PyErr PyVal

/-- `setters.pipe`: run all setters in order, each one's return value becoming
the next one's input; return the last return value.  An exception from any
stage propagates and stops the pipeline. -/
def pipe (setters : List Setter) : Setter :=
  fun instance_ attrib value =>
    setters.foldlM (fun v s => s instance_ attrib v) value

/-- `setters.frozen`: always raise `FrozenAttributeError`. -/
def frozen : Setter :=
  fun _ _ _ => .error .frozenError

/-- `setters.validate`: run the field's validator, if any, on the new value
(its failure propagates unchanged) and return the value unchanged. -/
def validate : Setter :=
  fun instance_ attrib new_value =>
    match attrib.validator with
    | some f => do
        let _ ← f instance_ new_value
        pure new_value
    | none => pure new_value

/-- `setters.convert`: apply the field's converter, if any, to the new value
and return the result; absent a converter, return the value unchanged. -/
def convert : Setter :=
  fun _ attrib new_value =>
    match attrib.converter with
    | some f => f new_value
    | none => pure new_value

/-! ## `_funcs.py` : `evolve` -/

/-- `dict.pop(name, default)` on the keyword-changes dict: remove and return
the entry for `name` if present (keyword argument names are unique, so at most
one entry matches), leaving the relative order of the rest untouched. -/
def popChange (name : String) : List (String × PyVal) → Option PyVal × List (String × PyVal)
  | [] => (none, [])
  | (k, x) :: rest =>
    if k = name then (some x, rest)
    else
      let r := popChange name rest
      (r.1, (k, x) :: r.2)

/-- First-match lookup among the keyword changes (Python dict lookup, keys
unique). -/
def lookupChange (name : String) : List (String × PyVal) → Option PyVal
  | [] => none
  | (k, x) :: rest => if k = name then some x else lookupChange name rest

/-- The `for attr in fields(...)` loop of `evolve`: for every `init` field,
take the popped change if one names it, else the instance's current value;
return the accumulated `new_values` (in field order) together with the
leftover changes. -/
def evolveLoop : List (Attribute × PyVal) → List (String × PyVal) →
    List (String × PyVal) × List (String × PyVal)
  | [], changes => ([], changes)
  | (a, v) :: rest, changes =>
    if a.init then
      let p := popChange a.name changes
      let r := evolveLoop rest p.2
      ((a.name, p.1.getD v) :: r.1, r.2)
    else
      evolveLoop rest changes

/-- Modelled from the spec: the generated initializer invoked by
`inst.__class__(**new_values)` lives in `_make.py`, the external Field
Registry module, which is not under `src/`.  Per the spec (sections 4.6 and 6),
it binds every `init: true` field to the keyword argument named after it, in
declared field order (`evolve` always supplies one for every init field), and
gives every non-init field its declared default.  Declared defaults,
construction-time validators and converters are outside the settled claims and
are not tracked; the unobserved slots are represented as `None`. -/
def initRecord (cls : String) (specs : List Attribute)
    (kwargs : List (String × PyVal)) : PyVal :=
  .record cls (specs.map (fun a =>
    (a, if a.init then (lookupChange a.name kwargs).getD PyVal.none_ else PyVal.none_)))

/-- `evolve` (_funcs.py): on a record instance, pop a change for every init
field (falling back to the instance's current value), fail naming the first
leftover change if any remain, else rebuild through the class initializer.  On
a non-record instance the source executes `raise NotAnAttrsClassError(...)`,
but `_funcs.py` imports only `AttrsAttributeNotFoundError` from
`.exceptions`, so the name `NotAnAttrsClassError` is unbound there and the
line raises `NameError` instead. -/
def evolve (inst : PyVal) (changes : List (String × PyVal)) : Except PyErr PyVal :=
  match inst with
  | .record cls fs =>
    let r := evolveLoop fs changes
    match r.2 with
    | [] => .ok (initRecord cls (fs.map Prod.fst) r.1)
    | (k, _) :: _ =>
      .error (.typeError (String.append "got an unexpected keyword argument: " k))
  | _ => .error (.nameError "NotAnAttrsClassError")

/-- The names of the init-eligible fields of a record's field list. -/
def initNames (fs : List (Attribute × PyVal)) : List String :=
  (fs.filter (fun av => av.1.init)).map (fun av => av.1.name)

/-! ## `_funcs.py` : `asdict` / `astuple`

The projector is embedded at the source's default factories: `dict_factory`
is `dict` (an ordered key-to-value mapping with per-insertion hashability
checking of keys), `tuple_factory` is `tuple`, and `value_serializer` is its
default `None` (the settled claims do not involve the serializer hook). -/

mutual
/-- Python hashability of a projected value: scalars are hashable, tuples and
frozensets are hashable when their elements are, and lists, sets, dicts and
record instances (whose generated `__hash__` is `None` for the default
eq-without-frozen configuration) are not. -/
def hashable : PyVal → Bool
  | .none_ => true
  | .bool _ => true
  | .int _ => true
  | .str _ => true
  | .tuple xs => hashableList xs
  | .frozen xs => hashableList xs
  | .list _ => false
  | .set _ => false
  | .dict _ => false
  | .record _ _ => false

/-- Hashability of every element of a list. -/
def hashableList : List PyVal → Bool
  | [] => true
  | x :: rest => hashable x && hashableList rest
end

mutual
/-- Structural value equality, used only to deduplicate keys and elements when
a mapping or set is rebuilt.  Python's cross-type numeric equality and its
order-insensitive set/dict equality are not modelled; no settled claim
constructs duplicate keys. -/
def PyVal.beq : PyVal → PyVal → Bool
  | .none_, .none_ => true
  | .bool a, .bool b => a == b
  | .int a, .int b => a == b
  | .str a, .str b => a == b
  | .tuple a, .tuple b => PyVal.beqList a b
  | .list a, .list b => PyVal.beqList a b
  | .set a, .set b => PyVal.beqList a b
  | .frozen a, .frozen b => PyVal.beqList a b
  | .dict a, .dict b => PyVal.beqPairs a b
  | .record c a, .record d b => c == d && PyVal.beqFields a b
  | _, _ => false

/-- Element-wise equality of value lists. -/
def PyVal.beqList : List PyVal → List PyVal → Bool
  | [], [] => true
  | x :: xs, y :: ys => PyVal.beq x y && PyVal.beqList xs ys
  | _, _ => false

/-- Entry-wise equality of mapping entry lists. -/
def PyVal.beqPairs : List (PyVal × PyVal) → List (PyVal × PyVal) → Bool
  | [], [] => true
  | (k, v) :: xs, (l, w) :: ys => PyVal.beq k l && PyVal.beq v w && PyVal.beqPairs xs ys
  | _, _ => false

/-- Field-wise equality of record field lists. -/
def PyVal.beqFields : List (Attribute × PyVal) → List (Attribute × PyVal) → Bool
  | [], [] => true
  | (a, v) :: xs, (b, w) :: ys => a == b && PyVal.beq v w && PyVal.beqFields xs ys
  | _, _ => false
end

/-- The name of a value's type, as Python prints it in an
unhashable-type error message. -/
def typeName : PyVal → String
  | .none_ => "NoneType"
  | .bool _ => "bool"
  | .int _ => "int"
  | .str _ => "str"
  | .tuple _ => "tuple"
  | .list _ => "list"
  | .set _ => "set"
  | .frozen _ => "frozenset"
  | .dict _ => "dict"
  | .record c _ => c

/-- Insert one key-to-value entry as Python `dict` does: an equal existing key
keeps its position (and the originally stored key object) with the value
replaced; a new key is appended. -/
def dictInsert (k v : PyVal) : List (PyVal × PyVal) → List (PyVal × PyVal)
  | [] => [(k, v)]
  | (k0, v0) :: rest =>
    if PyVal.beq k0 k then (k0, v) :: rest else (k0, v0) :: dictInsert k v rest

/-- Build a mapping from an entry list, entry by entry (Python `dict(pairs)`
after each key has already passed the hashability check). -/
def dictFromPairs (ps : List (PyVal × PyVal)) : List (PyVal × PyVal) :=
  ps.foldl (fun acc kv => dictInsert kv.1 kv.2 acc) []

/-- Build a set's element list from an iterable as Python `set(...)` does:
the first occurrence of each value is kept.  (Python's set iteration order is
unspecified; the model keeps insertion order.) -/
def setFromList (xs : List PyVal) : List PyVal :=
  xs.foldl (fun acc x => if acc.any (fun y => PyVal.beq y x) then acc else acc ++ [x]) []

/-- The first unhashable element of a list, if any (the one whose insertion
into a `set`/`frozenset` raises). -/
def firstUnhashable : List PyVal → Option PyVal
  | [] => none
  | x :: rest => if hashable x then firstUnhashable rest else some x

/-- A projection filter, called with the field metadata and the value. -/
abbrev FilterFn : Type :=
  Attribute → PyVal → Bool

/-- The skip test of the field loops:
`filter is not None and not filter(a, v)`. -/
def filterSkips (filt : Option FilterFn) (a : Attribute) (v : PyVal) : Bool :=
  match filt with
  | some f => !(f a v)
  | none => false

mutual
/-- `asdict` (_funcs.py): over the fields in declared order, skip a field the
filter rejects, then — when `recurse` holds — replace a nested record value by
its own `asdict` and a tuple/list/set/frozenset value by `_asdict_anything`;
every other value (note: including a value that is itself a mapping, for which
the source's field loop has no branch) is stored unchanged under the field's
name.  A non-record argument makes the registry's `fields` lookup raise. -/
def asdict (inst : PyVal) (recurse : Bool) (filt : Option FilterFn) (retain : Bool) :
    Except PyErr PyVal :=
  match inst with
  | .record _cls fs => do
    let entries ← asdictFields fs recurse filt retain
    pure (.dict entries)
  | _ => .error .notAnAttrsClass
termination_by (sizeOf inst, 0)

/-- The field loop of `asdict`. -/
def asdictFields (fs : List (Attribute × PyVal)) (recurse : Bool) (filt : Option FilterFn)
    (retain : Bool) : Except PyErr (List (PyVal × PyVal)) :=
  match fs with
  | [] => pure []
  | (a, v) :: rest =>
    if filterSkips filt a v then
      asdictFields rest recurse filt retain
    else do
      let v2 ← asdictValue v recurse filt retain
      let restEntries ← asdictFields rest recurse filt retain
      pure ((.str a.name, v2) :: restEntries)
termination_by (sizeOf fs, 0)

/-- The per-field value step of `asdict`: with `recurse` set, a record value
goes through `asdict` and a tuple/list/set/frozenset value through
`_asdict_anything`; any other value — note: including a mapping, for which the
field loop has no branch — is kept as is. -/
def asdictValue (v : PyVal) (recurse : Bool) (filt : Option FilterFn) (retain : Bool) :
    Except PyErr PyVal :=
  if recurse then
    match v with
    | .record c gs => asdict (.record c gs) recurse filt retain
    | .tuple xs => _asdict_anything (.tuple xs) recurse filt retain
    | .list xs => _asdict_anything (.list xs) recurse filt retain
    | .set xs => _asdict_anything (.set xs) recurse filt retain
    | .frozen xs => _asdict_anything (.frozen xs) recurse filt retain
    | w => pure w
  else pure v
termination_by (sizeOf v, 2)

/-- `_asdict_anything` (_funcs.py): a mapping is rebuilt through
`dict_factory` from its entries with key and value both projected (the key is
hash-checked on insertion, as `dict` construction does); a
tuple/list/set/frozenset is rebuilt element-wise into its original kind when
`retain` holds (a rebuilt set/frozenset hash-checks its elements) and into a
plain list otherwise; a record value goes through `asdict`; anything else is
returned unchanged. -/
def _asdict_anything (val : PyVal) (recurse : Bool) (filt : Option FilterFn) (retain : Bool) :
    Except PyErr PyVal :=
  match val with
  | .dict es => do
    let ps ← anyPairs es recurse filt retain
    pure (.dict (dictFromPairs ps))
  | .tuple xs => do
    let ys ← anyList xs recurse filt retain
    pure (if retain then .tuple ys else .list ys)
  | .list xs => do
    let ys ← anyList xs recurse filt retain
    pure (.list ys)
  | .set xs => do
    let ys ← anyList xs recurse filt retain
    if retain then
      match firstUnhashable ys with
      | some u => .error (.typeError ("unhashable type: " ++ typeName u))
      | none => pure (.set (setFromList ys))
    else pure (.list ys)
  | .frozen xs => do
    let ys ← anyList xs recurse filt retain
    if retain then
      match firstUnhashable ys with
      | some u => .error (.typeError ("unhashable type: " ++ typeName u))
      | none => pure (.frozen (setFromList ys))
    else pure (.list ys)
  | .record c gs => asdict (.record c gs) recurse filt retain
  | w => pure w
termination_by (sizeOf val, 1)

/-- Element-wise projection of a sequence/set's elements (the source's list
comprehension: all elements are projected before the container is built). -/
def anyList (xs : List PyVal) (recurse : Bool) (filt : Option FilterFn) (retain : Bool) :
    Except PyErr (List PyVal) :=
  match xs with
  | [] => pure []
  | x :: rest => do
    let y ← _asdict_anything x recurse filt retain
    let ys ← anyList rest recurse filt retain
    pure (y :: ys)
termination_by (sizeOf xs, 0)

/-- Entry-wise projection of a mapping's entries, in order, as the `dict`
constructor consumes the source's generator: each entry has key then value
projected and the projected key is then hash-checked on insertion, before the
next entry is touched. -/
def anyPairs (es : List (PyVal × PyVal)) (recurse : Bool) (filt : Option FilterFn)
    (retain : Bool) : Except PyErr (List (PyVal × PyVal)) :=
  match es with
  | [] => pure []
  | (k, v) :: rest => do
    let k2 ← _asdict_anything k recurse filt retain
    let v2 ← _asdict_anything v recurse filt retain
    if hashable k2 then do
      let ps ← anyPairs rest recurse filt retain
      pure ((k2, v2) :: ps)
    else .error (.typeError ("unhashable type: " ++ typeName k2))
termination_by (sizeOf es, 0)
end

mutual
/-- `astuple` (_funcs.py): over the fields in declared order, skip a field the
filter rejects; when `recurse` holds, a nested record value is replaced by its
own `astuple`, while a tuple/list/set/frozenset/dict value makes the source
call `_astuple_anything` — a name defined nowhere in the repository, so the
call raises `NameError`; every other value is appended unchanged. -/
def astuple (inst : PyVal) (recurse : Bool) (filt : Option FilterFn) (retain : Bool) :
    Except PyErr PyVal :=
  match inst with
  | .record _cls fs => do
    let vs ← astupleFields fs recurse filt retain
    pure (.tuple vs)
  | _ => .error .notAnAttrsClass
termination_by (sizeOf inst, 0)

/-- The field loop of `astuple`. -/
def astupleFields (fs : List (Attribute × PyVal)) (recurse : Bool) (filt : Option FilterFn)
    (retain : Bool) : Except PyErr (List PyVal) :=
  match fs with
  | [] => pure []
  | (a, v) :: rest =>
    if filterSkips filt a v then
      astupleFields rest recurse filt retain
    else do
      let v2 ← astupleValue v recurse filt retain
      let rest2 ← astupleFields rest recurse filt retain
      pure (v2 :: rest2)
termination_by (sizeOf fs, 0)

/-- The per-field value step of `astuple`: with `recurse` set, a record value
goes through `astuple`, while any tuple/list/set/frozenset/dict value makes
the source call the nowhere-defined `_astuple_anything`, raising `NameError`;
any other value is kept as is. -/
def astupleValue (v : PyVal) (recurse : Bool) (filt : Option FilterFn) (retain : Bool) :
    Except PyErr PyVal :=
  if recurse then
    match v with
    | .record c gs => astuple (.record c gs) recurse filt retain
    | .tuple _ => .error (.nameError "_astuple_anything")
    | .list _ => .error (.nameError "_astuple_anything")
    | .set _ => .error (.nameError "_astuple_anything")
    | .frozen _ => .error (.nameError "_astuple_anything")
    | .dict _ => .error (.nameError "_astuple_anything")
    | w => pure w
  else pure v
termination_by (sizeOf v, 1)
end

/-! ## Theorems for the claims about `filters.py` -/

/-- Claim C10: the predicates returned by `include` and `exclude` ignore their
value argument entirely — for any two values the verdict is the same, being
determined by the field argument alone. -/
theorem include_exclude_ignore_value (what : List Selector) (a : Attribute)
    (v1 v2 : PyVal) :
    include_filter what a v1 = include_filter what a v2 ∧
    exclude_filter what a v1 = exclude_filter what a v2 :=
  ⟨rfl, rfl⟩

/-- Claim C8: for every selector set and every field/value pair, exactly one
of `include`'s and `exclude`'s predicates accepts the pair: `exclude` is the
boolean negation of `include`, so no pair passes both or fails both. -/
theorem include_exclude_complement (what : List Selector) (a : Attribute) (v : PyVal) :
    exclude_filter what a v = !(include_filter what a v) ∧
    ((include_filter what a v = true ∧ exclude_filter what a v = false) ∨
     (include_filter what a v = false ∧ exclude_filter what a v = true)) := by
  have he : exclude_filter what a v = !(include_filter what a v) := rfl
  refine ⟨he, ?_⟩
  cases h : include_filter what a v
  · exact Or.inr ⟨rfl, by rw [he, h]; rfl⟩
  · exact Or.inl ⟨rfl, by rw [he, h]; rfl⟩

/-- Claim C4 counterexample: `include([int])` applied to a field whose
declared category (type annotation) is `int` rejects the field, although the
claim demands acceptance — the source tests `attribute.__class__ in classes`,
i.e. the class of the metadata object itself, never the declared type. -/
theorem include_declared_type_counterexample :
    include_filter [Selector.cls PyClass.intCls]
        ⟨"x", some PyClass.intCls, true⟩ (PyVal.int 5) = false
    ∧ include_spec_accepts [Selector.cls PyClass.intCls]
        ⟨"x", some PyClass.intCls, true⟩ := by
  refine ⟨rfl, ?_⟩
  exact Or.inr (Or.inl ⟨PyClass.intCls, rfl, by simp [_split_what]⟩)

/-- Claim C4 (amended): the predicate returned by `include(S)` accepts a
`(field, value)` pair iff the field's name is in the name/identity-set, or the
class of the field-metadata object itself — which is always the `Attribute`
class, never the field's declared category — is in the type-set, or the field
object itself is in the name/identity-set; in particular `include(T)` for a
type `T` other than the `Attribute` class accepts no field through its
type-set. -/
theorem include_filter_amended (what : List Selector) (a : Attribute) (v : PyVal) :
    include_filter what a v = true ↔
      (Selector.name a.name ∈ (_split_what what).2
       ∨ PyClass.attributeCls ∈ (_split_what what).1
       ∨ Selector.attr a ∈ (_split_what what).2) := by
  simp [include_filter, Attribute.pyClass, or_assoc]

/-- Concrete instantiation of the amended C4 statement. -/
theorem include_filter_amended_witness :
    include_filter [Selector.name "x"] ⟨"x", none, true⟩ PyVal.none_ = true :=
  (include_filter_amended [Selector.name "x"] ⟨"x", none, true⟩ PyVal.none_).mpr
    (Or.inl (by simp [_split_what]))

/-! ## Theorems for the claim about `_cmp.py` -/

/-- Claim C2: for a comparator type built by `cmp_using` with
`require_same_type` true, every wired operator (eq, lt, le, gt, ge and the
derived ne) on operands of different concrete types returns the
soft-incomparable value `NotImplemented` (not an exception), and on operands
of the same type returns the boolean result of the corresponding
user-supplied predicate on the two wrapped values (ne its negation). -/
theorem cmp_using_same_type_policy {α : Type} (eqf ltf lef gtf gef : α → α → Bool)
    (x y : CmpInstance α) :
    (x.cls ≠ y.cls →
      invokeM (fullCmp eqf ltf lef gtf gef).eqM x y = .notImplemented ∧
      invokeM (fullCmp eqf ltf lef gtf gef).neM x y = .notImplemented ∧
      invokeM (fullCmp eqf ltf lef gtf gef).ltM x y = .notImplemented ∧
      invokeM (fullCmp eqf ltf lef gtf gef).leM x y = .notImplemented ∧
      invokeM (fullCmp eqf ltf lef gtf gef).gtM x y = .notImplemented ∧
      invokeM (fullCmp eqf ltf lef gtf gef).geM x y = .notImplemented)
    ∧ (x.cls = y.cls →
      invokeM (fullCmp eqf ltf lef gtf gef).eqM x y = .res (eqf x.value y.value) ∧
      invokeM (fullCmp eqf ltf lef gtf gef).neM x y = .res (!(eqf x.value y.value)) ∧
      invokeM (fullCmp eqf ltf lef gtf gef).ltM x y = .res (ltf x.value y.value) ∧
      invokeM (fullCmp eqf ltf lef gtf gef).leM x y = .res (lef x.value y.value) ∧
      invokeM (fullCmp eqf ltf lef gtf gef).gtM x y = .res (gtf x.value y.value) ∧
      invokeM (fullCmp eqf ltf lef gtf gef).geM x y = .res (gef x.value y.value)) := by
  constructor
  · intro h
    have hb : (x.cls != y.cls) = true := by simp [bne_iff_ne, h]
    simp [fullCmp, cmp_using, invokeM, _make_method, _make_ne, hb]
  · intro h
    have hb : (x.cls != y.cls) = false := by simp [h]
    simp [fullCmp, cmp_using, invokeM, _make_method, _make_ne, hb]

/-- Concrete instantiation of C2: different-class operands are soft
incomparable, same-class operands answer the predicate. -/
theorem cmp_using_same_type_policy_witness :
    invokeM (fullCmp (α := Nat) (fun a b => a == b) (fun a b => decide (a < b))
        (fun a b => decide (a ≤ b)) (fun a b => decide (b < a))
        (fun a b => decide (b ≤ a))).ltM ⟨0, 1⟩ ⟨1, 2⟩ = .notImplemented
    ∧ invokeM (fullCmp (α := Nat) (fun a b => a == b) (fun a b => decide (a < b))
        (fun a b => decide (a ≤ b)) (fun a b => decide (b < a))
        (fun a b => decide (b ≤ a))).ltM ⟨0, 1⟩ ⟨0, 2⟩ = .res true :=
  ⟨((cmp_using_same_type_policy _ _ _ _ _ ⟨0, 1⟩ ⟨1, 2⟩).1 (by decide)).2.2.1,
   ((cmp_using_same_type_policy _ _ _ _ _ ⟨0, 1⟩ ⟨0, 2⟩).2 rfl).2.2.1⟩

/-! ## Theorems for the claims about `evolve` -/

/-- Claim C9 (code divergence): invoked on a non-record instance, `evolve`
does not raise the record-type error: `_funcs.py` imports only
`AttrsAttributeNotFoundError` from `.exceptions`, so its
`raise NotAnAttrsClassError(...)` line raises `NameError` for the unbound
global name instead. -/
theorem evolve_non_record_raises_name_error :
    evolve (PyVal.int 5) [] = .error (.nameError "NotAnAttrsClassError") :=
  rfl

/-! ## Theorems for the claim about `converters.to_bool` -/

/-- Claim C6: `to_bool` answers true for boolean true, the integer 1 and the
case-insensitive truthy tokens, false for boolean false, the integer 0 and
the case-insensitive falsy tokens, and for every other input raises a value
error naming the offending input (strings and ints as lower-cased by the
conversion). -/
theorem to_bool_table :
    (∀ b : Bool, to_bool (.bool b) = .ok b)
    ∧ to_bool (.int 1) = .ok true
    ∧ to_bool (.int 0) = .ok false
    ∧ (∀ s : String, pyLower s ∈ truthyTokens → to_bool (.str s) = .ok true)
    ∧ (∀ s : String, pyLower s ∉ truthyTokens → pyLower s ∈ falsyTokens →
        to_bool (.str s) = .ok false)
    ∧ (∀ s : String, pyLower s ∉ truthyTokens → pyLower s ∉ falsyTokens →
        to_bool (.str s) = .error (.valueError (.str (pyLower s))))
    ∧ (∀ n : Int, pyLower (toString n) ∉ truthyTokens → pyLower (toString n) ∉ falsyTokens →
        to_bool (.int n) = .error (.valueError (.str (pyLower (toString n)))))
    ∧ to_bool (.str "maybe") = .error (.valueError (.str "maybe"))
    ∧ (∀ xs, to_bool (.list xs) = .error (.valueError (.list xs)))
    ∧ to_bool .none_ = .error (.valueError .none_) := by
  refine ⟨fun b => rfl, ?_, ?_, ?_, ?_, ?_, ?_, ?_, fun xs => rfl, rfl⟩
  · show toBoolToken (toString (1 : Int)) = .ok true
    unfold toBoolToken
    rw [if_pos (by decide)]
  · show toBoolToken (toString (0 : Int)) = .ok false
    unfold toBoolToken
    rw [if_neg (by decide), if_pos (by decide)]
  · intro s hs
    show toBoolToken s = .ok true
    unfold toBoolToken
    rw [if_pos hs]
  · intro s hs1 hs2
    show toBoolToken s = .ok false
    unfold toBoolToken
    rw [if_neg hs1, if_pos hs2]
  · intro s hs1 hs2
    show toBoolToken s = .error (.valueError (.str (pyLower s)))
    unfold toBoolToken
    rw [if_neg hs1, if_neg hs2]
  · intro n hn1 hn2
    show toBoolToken (toString n) = .error (.valueError (.str (pyLower (toString n))))
    unfold toBoolToken
    rw [if_neg hn1, if_neg hn2]
  · show toBoolToken "maybe" = .error (.valueError (.str "maybe"))
    unfold toBoolToken
    rw [if_neg (by decide), if_neg (by decide),
      show pyLower "maybe" = "maybe" from by decide]

/-- Concrete instantiation of C6: a case-insensitive truthy token converts,
an unknown token fails naming itself. -/
theorem to_bool_table_witness :
    to_bool (.str "YES") = .ok true
    ∧ to_bool (.str "off") = .ok false :=
  ⟨to_bool_table.2.2.2.1 "YES" (by decide),
   to_bool_table.2.2.2.2.1 "off" (by decide) (by decide)⟩

/-! ## Theorems for the claim about `setters.py` -/

/-- Claim C7: `pipe` threads the written value through the stages strictly in
declaration order (each stage's output is the next stage's input, the last
output is returned, and a stage's failure stops the pipeline); consequently
`pipe(validate, convert)` validates the raw incoming value before any
conversion — a rejected value fails with the validator's error no matter what
the converter is, and an accepted value is stored converted. -/
theorem pipe_contract (inst : PyVal) (attrib : SetAttrib) (v : PyVal) :
    (pipe [] inst attrib v = .ok v)
    ∧ (∀ (s : Setter) (ss : List Setter),
        pipe (s :: ss) inst attrib v =
          (s inst attrib v).bind (fun v2 => pipe ss inst attrib v2))
    ∧ (∀ ss ts : List Setter,
        pipe (ss ++ ts) inst attrib v =
          (pipe ss inst attrib v).bind (fun v2 => pipe ts inst attrib v2))
    ∧ (∀ V e, attrib.validator = some V → V inst v = .error e →
        pipe [validate, convert] inst attrib v = .error e
        ∧ ∀ c1 c2 : Option (PyVal → Except PyErr PyVal),
            pipe [validate, convert] inst { attrib with converter := c1 } v =
            pipe [validate, convert] inst { attrib with converter := c2 } v)
    ∧ (∀ V C, attrib.validator = some V → attrib.converter = some C →
        V inst v = .ok () →
        pipe [validate, convert] inst attrib v = C v) := by
  refine ⟨rfl, fun s ss => ?_, fun ss ts => ?_, fun V e hV herr => ⟨?_, fun c1 c2 => ?_⟩,
    fun V C hV hC hok => ?_⟩
  · show Except.bind (s inst attrib v) _ = _
    cases s inst attrib v <;> rfl
  · induction ss generalizing v with
    | nil => cases pipe ts inst attrib v <;> rfl
    | cons s ss ih =>
      show Except.bind (s inst attrib v) _ = Except.bind (Except.bind (s inst attrib v) _) _
      cases s inst attrib v with
      | error e => rfl
      | ok v2 => exact ih v2
  · have h1 : validate inst attrib v = .error e := by
      simp only [validate, hV, herr]
      rfl
    show Except.bind (validate inst attrib v) _ = _
    rw [h1]
    rfl
  · have h1 : validate inst { attrib with converter := c1 } v = .error e := by
      simp only [validate, hV, herr]
      rfl
    have h2 : validate inst { attrib with converter := c2 } v = .error e := by
      simp only [validate, hV, herr]
      rfl
    show Except.bind (validate inst { attrib with converter := c1 } v) _ =
      Except.bind (validate inst { attrib with converter := c2 } v) _
    rw [h1, h2]
    rfl
  · have h1 : validate inst attrib v = .ok v := by
      simp only [validate, hV, hok]
      rfl
    have h2 : convert inst attrib v = C v := by
      simp only [convert, hC]
    show Except.bind (validate inst attrib v) _ = _
    rw [h1]
    show Except.bind (convert inst attrib v) _ = _
    rw [h2]
    cases C v <;> rfl

/-- Concrete instantiation of C7: a rejecting validator fails the write
before conversion, an accepting one lets the converter's output be stored. -/
theorem pipe_contract_witness :
    pipe [validate, convert] PyVal.none_
        ⟨some (fun _ _ => .error (.validationError "must not be None")),
         some (fun _ => .ok (.bool true))⟩ PyVal.none_
      = .error (.validationError "must not be None")
    ∧ pipe [validate, convert] PyVal.none_
        ⟨some (fun _ _ => .ok ()), some (fun _ => .ok (.bool true))⟩ (.str "yes")
      = .ok (.bool true) :=
  ⟨((pipe_contract PyVal.none_ _ PyVal.none_).2.2.2.1 _ _ rfl rfl).1,
   (pipe_contract PyVal.none_ _ (.str "yes")).2.2.2.2 _ _ rfl rfl rfl⟩

/-! ### Helper lemmas about `evolve`'s keyword bookkeeping -/

theorem popChange_fst (n : String) (cs : List (String × PyVal)) :
    (popChange n cs).1 = lookupChange n cs := by
  induction cs with
  | nil => rfl
  | cons p rest ih =>
    obtain ⟨k, x⟩ := p
    by_cases h : k = n
    · simp [popChange, lookupChange, h]
    · simp [popChange, lookupChange, h, ih]

theorem popChange_sublist (n : String) (cs : List (String × PyVal)) :
    (popChange n cs).2.Sublist cs := by
  induction cs with
  | nil => exact List.Sublist.refl _
  | cons p rest ih =>
    obtain ⟨k, x⟩ := p
    by_cases h : k = n
    · simp only [popChange, if_pos h]
      exact List.sublist_cons_self _ _
    · simp only [popChange, if_neg h]
      exact ih.cons₂ _

theorem popChange_keys_nodup (n : String) (cs : List (String × PyVal))
    (hc : (cs.map Prod.fst).Nodup) : ((popChange n cs).2.map Prod.fst).Nodup :=
  hc.sublist ((popChange_sublist n cs).map Prod.fst)

theorem lookupChange_popChange (n m : String) (hm : m ≠ n)
    (cs : List (String × PyVal)) :
    lookupChange m (popChange n cs).2 = lookupChange m cs := by
  induction cs with
  | nil => rfl
  | cons p rest ih =>
    obtain ⟨k, x⟩ := p
    by_cases hk : k = n
    · subst hk
      simp only [popChange, if_pos rfl]
      have hkm : ¬(k = m) := fun h => hm h.symm
      simp [lookupChange, hkm]
    · simp only [popChange, if_neg hk]
      by_cases hkm : k = m
      · simp [lookupChange, hkm]
      · simp [lookupChange, hkm, ih]

theorem popChange_filter (n : String) (L : List String) (cs : List (String × PyVal))
    (hc : (cs.map Prod.fst).Nodup) :
    (popChange n cs).2.filter (fun p => decide (p.1 ∉ L)) =
      cs.filter (fun p => decide (p.1 ∉ (n :: L))) := by
  induction cs with
  | nil => rfl
  | cons p rest ih =>
    obtain ⟨k, x⟩ := p
    rw [List.map_cons, List.nodup_cons] at hc
    obtain ⟨hknot, hcrest⟩ := hc
    by_cases hk : k = n
    · subst hk
      have hpop : popChange k ((k, x) :: rest) = (some x, rest) := by
        simp [popChange]
      rw [hpop]
      rw [List.filter_cons]
      have hhead : (decide ((k, x).1 ∉ (k :: L))) = false := by simp
      rw [hhead]
      simp only [Bool.false_eq_true, if_false]
      refine List.filter_congr ?_
      intro p hp
      have hpk : p.1 ≠ k := by
        intro hpk
        have hmem : p.1 ∈ rest.map Prod.fst := List.mem_map_of_mem Prod.fst hp
        exact hknot (hpk ▸ hmem)
      exact decide_eq_decide.mpr (by simp [List.mem_cons, hpk])
    · have hpop : popChange n ((k, x) :: rest) =
          ((popChange n rest).1, (k, x) :: (popChange n rest).2) := by
        simp [popChange, hk]
      rw [hpop]
      rw [List.filter_cons, List.filter_cons, ih hcrest]
      have hpred : (decide ((k, x).1 ∉ L)) = (decide ((k, x).1 ∉ (n :: L))) :=
        decide_eq_decide.mpr (by simp [List.mem_cons, hk])
      rw [hpred]

theorem lookup_newValues (changes : List (String × PyVal)) :
    ∀ fs : List (Attribute × PyVal), (fs.map (fun av => av.1.name)).Nodup →
      ∀ a v, (a, v) ∈ fs → a.init = true →
        lookupChange a.name
          ((fs.filter (fun av => av.1.init)).map
            (fun av => (av.1.name, (lookupChange av.1.name changes).getD av.2)))
          = some ((lookupChange a.name changes).getD v) := by
  intro fs
  induction fs with
  | nil =>
    intro _ a v hmem
    exact absurd hmem (List.not_mem_nil _)
  | cons bw rest ih =>
    intro hfs a v hmem hinit
    obtain ⟨b, w⟩ := bw
    rw [List.map_cons, List.nodup_cons] at hfs
    obtain ⟨hbnot, hrest⟩ := hfs
    rcases List.mem_cons.mp hmem with heq | htail
    · have h1 : a = b := congrArg Prod.fst heq
      have h2 : v = w := congrArg Prod.snd heq
      subst h1
      subst h2
      rw [List.filter_cons_of_pos (by simpa using hinit), List.map_cons]
      simp [lookupChange]
    · have hanames : a.name ∈ rest.map (fun av => av.1.name) := by
        have := List.mem_map_of_mem (fun av : Attribute × PyVal => av.1.name) htail
        simpa using this
      have hne : b.name ≠ a.name := fun h => hbnot (h ▸ hanames)
      by_cases hb : b.init
      · rw [List.filter_cons_of_pos (by simpa using hb), List.map_cons]
        simp only [lookupChange, if_neg hne]
        exact ih hrest a v htail hinit
      · rw [List.filter_cons_of_neg (by simpa using hb)]
        exact ih hrest a v htail hinit

theorem evolveLoop_eq (fs : List (Attribute × PyVal)) :
    ∀ changes : List (String × PyVal),
      (fs.map (fun av => av.1.name)).Nodup →
      (changes.map Prod.fst).Nodup →
      evolveLoop fs changes =
        ((fs.filter (fun av => av.1.init)).map
            (fun av => (av.1.name, (lookupChange av.1.name changes).getD av.2)),
         changes.filter (fun p => decide (p.1 ∉ initNames fs))) := by
  induction fs with
  | nil =>
    intro changes _ _
    simp [evolveLoop, initNames]
  | cons av rest ih =>
    intro changes hfs hc
    obtain ⟨a, v⟩ := av
    rw [List.map_cons, List.nodup_cons] at hfs
    obtain ⟨hnotin, hrest⟩ := hfs
    by_cases ha : a.init
    · have hihr := ih (popChange a.name changes).2 hrest (popChange_keys_nodup a.name changes hc)
      have hstep : evolveLoop ((a, v) :: rest) changes =
          ((a.name, (popChange a.name changes).1.getD v) ::
              (evolveLoop rest (popChange a.name changes).2).1,
            (evolveLoop rest (popChange a.name changes).2).2) := by
        simp [evolveLoop, ha]
      rw [hstep, hihr, popChange_fst]
      dsimp only
      congr 1
      · rw [List.filter_cons_of_pos (by simpa using ha), List.map_cons]
        congr 1
        refine List.map_congr_left ?_
        intro bw hbw
        have hbmem : bw ∈ rest := (List.mem_filter.mp hbw).1
        have hbname : bw.1.name ∈ rest.map (fun av => av.1.name) := by
          have := List.mem_map_of_mem (fun av : Attribute × PyVal => av.1.name) hbmem
          simpa using this
        have hne : bw.1.name ≠ a.name := fun h => hnotin (h ▸ hbname)
        rw [lookupChange_popChange a.name bw.1.name hne changes]
      · rw [popChange_filter a.name (initNames rest) changes hc]
        have hin : initNames ((a, v) :: rest) = a.name :: initNames rest := by
          simp [initNames, ha]
        rw [hin]
    · have ha2 : a.init = false := by simpa using ha
      have hstep : evolveLoop ((a, v) :: rest) changes = evolveLoop rest changes := by
        simp [evolveLoop, ha2]
      rw [hstep, ih changes hrest hc]
      congr 1
      · rw [List.filter_cons_of_neg (by simpa using ha)]
      · have hin : initNames ((a, v) :: rest) = initNames rest := by
          simp [initNames, ha2]
        rw [hin]

/-- Claim C3: on a record instance, for a change set whose names all denote
init-eligible fields, `evolve` returns a new instance of the same concrete
type whose every changed field equals the supplied value and whose every other
init-eligible field equals the source's corresponding value; a change naming a
non-init or nonexistent field fails with an argument error naming the first
unexpected key in caller-supplied order. -/
theorem evolve_contract (cls : String) (fs : List (Attribute × PyVal))
    (changes : List (String × PyVal))
    (hfs : (fs.map (fun av => av.1.name)).Nodup)
    (hc : (changes.map Prod.fst).Nodup) :
    ((∀ p ∈ changes, p.1 ∈ initNames fs) →
      ∃ fs2, evolve (.record cls fs) changes = .ok (.record cls fs2)
        ∧ fs2.map Prod.fst = fs.map Prod.fst
        ∧ ∀ a v v2, (a, v) ∈ fs → (a, v2) ∈ fs2 → a.init = true →
            v2 = (lookupChange a.name changes).getD v)
    ∧ (∀ k x rest2,
        changes.filter (fun p => decide (p.1 ∉ initNames fs)) = (k, x) :: rest2 →
        evolve (.record cls fs) changes =
          .error (.typeError (String.append "got an unexpected keyword argument: " k))) := by
  have hev : evolve (.record cls fs) changes =
      (match (evolveLoop fs changes).2 with
       | [] => Except.ok (initRecord cls (fs.map Prod.fst) (evolveLoop fs changes).1)
       | (k, _) :: _ =>
          Except.error (.typeError (String.append "got an unexpected keyword argument: " k))) :=
    rfl
  have hloop := evolveLoop_eq fs changes hfs hc
  constructor
  · intro hsub
    have hrem : changes.filter (fun p => decide (p.1 ∉ initNames fs)) = [] := by
      rw [List.filter_eq_nil_iff]
      intro p hp
      simp [hsub p hp]
    refine ⟨(fs.map Prod.fst).map (fun a =>
        (a, if a.init then
              (lookupChange a.name
                ((fs.filter (fun av => av.1.init)).map
                  (fun av => (av.1.name, (lookupChange av.1.name changes).getD av.2)))).getD
                PyVal.none_
            else PyVal.none_)), ?_, ?_, ?_⟩
    · rw [hev, hloop, hrem]
      rfl
    · simp [List.map_map, Function.comp]
    · intro a v v2 hmemf hmem2 hinit
      obtain ⟨a2, ha2, heq⟩ := List.mem_map.mp hmem2
      have h1 : a2 = a := congrArg Prod.fst heq
      subst h1
      have h2 : v2 = if a2.init then
          (lookupChange a2.name
            ((fs.filter (fun av => av.1.init)).map
              (fun av => (av.1.name, (lookupChange av.1.name changes).getD av.2)))).getD
            PyVal.none_
          else PyVal.none_ := (congrArg Prod.snd heq).symm
      rw [h2, if_pos hinit, lookup_newValues changes fs hfs a2 v hmemf hinit,
        Option.getD_some]
  · intro k x rest2 hfilter
    rw [hev, hloop, hfilter]

/-- Concrete instantiation of C3: changing the init field `y` of a
three-field record keeps `x`, replaces `y` and rebuilds through the
initializer. -/
theorem evolve_contract_witness :
    ∃ fs2,
      evolve (.record "P"
          [(⟨"x", none, true⟩, .int 1), (⟨"y", none, true⟩, .int 2),
           (⟨"z", none, false⟩, .int 3)]) [("y", .int 9)]
        = .ok (.record "P" fs2)
      ∧ fs2.map Prod.fst =
          ([(⟨"x", none, true⟩, PyVal.int 1), (⟨"y", none, true⟩, PyVal.int 2),
            (⟨"z", none, false⟩, PyVal.int 3)]).map Prod.fst
      ∧ ∀ a v v2,
          (a, v) ∈ [(⟨"x", none, true⟩, PyVal.int 1), (⟨"y", none, true⟩, PyVal.int 2),
                    (⟨"z", none, false⟩, PyVal.int 3)] →
          (a, v2) ∈ fs2 → a.init = true →
          v2 = (lookupChange a.name [("y", PyVal.int 9)]).getD v :=
  (evolve_contract "P"
      [(⟨"x", none, true⟩, .int 1), (⟨"y", none, true⟩, .int 2),
       (⟨"z", none, false⟩, .int 3)] [("y", .int 9)]
      (by decide) (by decide)).1 (by decide)

/-! ## Theorems for the claims about the structural projector -/

/-- Claim C1 (code divergence): with `recurse` true, a mapping-valued field is
*not* replaced by a projection — `asdict`'s field loop has branches only for
record and tuple/list/set/frozenset values, so the mapping is stored as is
with its nested record unprojected, even though `_asdict_anything` (reached
only for mappings nested inside sequence/set values) would project it
key-and-value; and `astuple` on any container-valued field raises `NameError`
because it calls `_astuple_anything`, which is defined nowhere in the
repository. -/
theorem projector_container_divergence :
    asdict (.record "C" [(⟨"d", none, true⟩,
        .dict [(.int 1, .record "P" [(⟨"x", none, true⟩, .int 2)])])]) true none false
      = .ok (.dict [(.str "d",
          .dict [(.int 1, .record "P" [(⟨"x", none, true⟩, .int 2)])])])
    ∧ _asdict_anything (.dict [(.int 1, .record "P" [(⟨"x", none, true⟩, .int 2)])])
        true none false
      = .ok (.dict [(.int 1, .dict [(.str "x", .int 2)])])
    ∧ astuple (.record "C" [(⟨"d", none, true⟩,
        .dict [(.int 1, .record "P" [(⟨"x", none, true⟩, .int 2)])])]) true none false
      = .error (.nameError "_astuple_anything") := by
  refine ⟨?_, ?_, ?_⟩ <;>
    simp [asdict, asdictFields, asdictValue, _asdict_anything, anyPairs, anyList,
      dictFromPairs, dictInsert, hashable, filterSkips, astuple, astupleFields,
      astupleValue, typeName] <;>
    rfl

/-- Claim C5 (code divergence): projecting a record containing (inside a
sequence) a mapping one of whose keys is a frozenset *fails*: the key is
projected with the same `retain_collection_types=False` normalization as a
value, becoming a list, and rebuilding the mapping hash-checks the new key, so
the `dict` construction raises a `TypeError` for the unhashable projected
key. -/
theorem projector_mapping_key_failure :
    asdict (.record "C" [(⟨"v", none, true⟩,
        .list [.dict [(.frozen [.int 1], .int 2)]])]) true none false
      = .error (.typeError "unhashable type: list") := by
  simp [asdict, asdictFields, asdictValue, _asdict_anything, anyPairs, anyList,
    dictFromPairs, dictInsert, hashable, hashableList, filterSkips, typeName]

end Attrs
